import Mathlib

/-!
Verification of the conversational backend (server.py, src/agents/models.py):
a shallow embedding of the stream formatter, the conversation engine's
context handling, and the thread-init endpoint, with theorems checking the
specified behaviour against the embedded code.
-/

namespace Spec2Proof

/-- One tool call / tool-call chunk as carried by a message: mirrors the
dicts langchain stores in `tool_calls` / `tool_call_chunks` (`id`, `name`,
`args`, each possibly `None`). -/
structure ToolCall where
  call_id : Option String
  name : Option String
  args : Option String
deriving DecidableEq, Repr

/-- A langchain message as consumed by server.py and models.py. `type` is
the langchain role tag ("human", "ai", "tool", "system", or "remove" for a
RemoveMessage). An attribute a given message class does not carry is
modelled as the empty list / empty string. -/
structure Message where
  id : String
  type : String
  content : String
  tool_calls : List ToolCall := []
  tool_call_chunks : List ToolCall := []
  tool_call_id : String := ""
deriving DecidableEq, Repr

/-- server.py get_message_role: duck-typed role classifier. A non-empty
`tool_call_chunks` or `tool_calls` wins; then ToolMessage; then
HumanMessage; everything else is "ai". -/
def get_message_role (m : Message) : String :=
  if m.tool_call_chunks ≠ [] ∨ m.tool_calls ≠ [] then "tool_call"
  else if m.type = "tool" then "tool_result"
  else if m.type = "human" then "human"
  else "ai"

/-- langgraph's sentinel id that makes add_messages drop all prior state. -/
def REMOVE_ALL_MESSAGES : String := "__remove_all__"

def isRemoveAll (m : Message) : Bool :=
  m.type = "remove" && m.id = REMOVE_ALL_MESSAGES

/-- The suffix of the list strictly after its LAST remove-all sentinel,
or `none` if the list has no such sentinel. -/
def afterLastRemoveAll : List Message → Option (List Message)
  | [] => none
  | m :: rest =>
    match afterLastRemoveAll rest with
    | some r => some r
    | none => if isRemoveAll m then some rest else none

/-- One step of the id-keyed merge performed by langgraph's add_messages:
a RemoveMessage deletes its id, a message whose id is already present
replaces it in place, and a fresh id is appended. -/
def mergeOne (acc : List Message) (m : Message) : List Message :=
  if m.type = "remove" then acc.filter (fun x => x.id != m.id)
  else if acc.any (fun x => x.id == m.id) then
    acc.map (fun x => if x.id = m.id then m else x)
  else acc ++ [m]

/-- langgraph's add_messages reducer (modelled from its documented
semantics): if the update contains a RemoveMessage with id
REMOVE_ALL_MESSAGES, the result is the update's suffix after the last such
sentinel; otherwise the update is merged into the left list id by id. -/
def add_messages (left right : List Message) : List Message :=
  match afterLastRemoveAll right with
  | some suffix => suffix
  | none => right.foldl mergeOne left

/-- The graph state of models.py: the user-visible transcript and the LLM
working context (the `config` bag is irrelevant to the claims). -/
structure State where
  messages : List Message
  llm_context : List Message
deriving DecidableEq, Repr

/-- models.py invoke_agent_with_context step 2:
`llm_context + [messages[-1]] if messages else llm_context`. -/
def syncContext (llm_context messages : List Message) : List Message :=
  match messages.getLast? with
  | some last => llm_context ++ [last]
  | none => llm_context

/-- The RemoveMessage(id=REMOVE_ALL_MESSAGES) placed at the head of the
returned llm_context update (models.py line 201). -/
def removeAllSentinel : Message :=
  { id := REMOVE_ALL_MESSAGES, type := "remove", content := "" }

/-- models.py invoke_agent_with_context. The agent is modelled as a function
from the augmented context to the full returned message list
(`response["messages"]`). Returns
(new_ai_messages, result_llm_context, response messages). -/
def invoke_agent_with_context (state : State)
    (agent : List Message → List Message) :
    List Message × List Message × List Message :=
  let current_llm_context := syncContext state.llm_context state.messages
  let new_llm_context := agent current_llm_context
  let old_ids := current_llm_context.map (fun m => m.id)
  let new_ai_messages := new_llm_context.filter
    (fun m => (m.type == "ai" || m.type == "tool") && !(old_ids.contains m.id))
  let result_llm_context := removeAllSentinel :: new_llm_context
  (new_ai_messages, result_llm_context, new_llm_context)

/-- A server-sent event emitted by server.py (the JSON payloads of
streaming_process and the generate wrapper). -/
inductive Event where
  | thread_id (tid : String)
  | message_change (role : String)
  | token (content : String) (chunk_position : Option Nat)
  | error (msg : String)
  | done
deriving DecidableEq, Repr

def Event.isData : Event → Bool
  | .message_change _ => true
  | .token _ _ => true
  | _ => false

def Event.isToken : Event → Bool
  | .token _ _ => true
  | _ => false

def Event.isDone : Event → Bool
  | .done => true
  | _ => false

def Event.isError : Event → Bool
  | .error _ => true
  | _ => false

def Event.isThreadId : Event → Bool
  | .thread_id _ => true
  | _ => false

/-- One incremental message token from graph.stream: the message object plus
the optional `chunk_position` attribute (`none` models the attribute being
absent). -/
structure Fragment where
  msg : Message
  chunk_position : Option Nat := none
deriving DecidableEq, Repr

/-- server.py line 90: `message_token.chunk_position if hasattr(...) and
message_token.chunk_position else None` — a truthiness check, so a position
of 0 collapses to None. -/
def chunk_position_of (f : Fragment) : Option Nat :=
  match f.chunk_position with
  | some p => if p = 0 then none else some p
  | none => none

/-- One entry of the tool-call rendering loop (server.py lines 103-107);
a `None` args renders as Python's "None" under the f-string. -/
def renderToolCallChunk (tc : ToolCall) : String :=
  let tid := match tc.call_id with
    | none => ""
    | some i => "🔧 Tool Call(" ++ i ++ "):\n"
  let tname := match tc.name with
    | none => ""
    | some n => "name: " ++ n ++ "\nargs: "
  let targs := match tc.args with
    | none => "None"
    | some a => a
  tid ++ tname ++ targs

def renderToolCalls (tcs : List ToolCall) : String :=
  tcs.foldl (fun acc tc => acc ++ renderToolCallChunk tc) ""

/-- The two loop variables of streaming_process: `message_id` and
`message_role`, both initially None. -/
structure StreamState where
  message_id : Option String
  message_role : Option String
deriving DecidableEq, Repr

def initStreamState : StreamState := { message_id := none, message_role := none }

/-- The per-fragment emission of streaming_process (server.py lines
100-116), keyed on the current `message_role` loop variable. -/
def emitContent (role : Option String) (f : Fragment) : List Event :=
  if role = some "tool_call" then
    [Event.token (renderToolCalls f.msg.tool_call_chunks) (chunk_position_of f)]
  else if role = some "tool_result" then
    if f.msg.tool_call_id = "" ∧ f.msg.content ≠ "" then []
    else
      [Event.token
        ("✅ Tool Result(" ++ f.msg.tool_call_id ++ "):\nresult: " ++ f.msg.content)
        (chunk_position_of f)]
  else
    [Event.token f.msg.content (chunk_position_of f)]

/-- One iteration of the streaming_process loop body (server.py lines
89-116): new-message detection (which updates `message_role` even when the
empty-ai suppression path skips the fragment) followed by emission. -/
def stepFragment (s : StreamState) (f : Fragment) : StreamState × List Event :=
  if s.message_id ≠ some f.msg.id then
    if get_message_role f.msg = "ai" ∧ f.msg.content = "" then
      ({ s with message_role := some (get_message_role f.msg) }, [])
    else
      ({ message_id := some f.msg.id, message_role := some (get_message_role f.msg) },
        Event.message_change (get_message_role f.msg)
          :: emitContent (some (get_message_role f.msg)) f)
  else
    (s, emitContent s.message_role f)

/-- One item yielded by graph.stream to the loop of streaming_process: a
(mode, chunk) pair, or an exception raised while consuming the stream. -/
inductive SourceItem where
  | frag (mode : String) (f : Fragment)
  | raise (msg : String)
deriving DecidableEq, Repr

def SourceItem.isRaise : SourceItem → Bool
  | .raise _ => true
  | _ => false

/-- The graph.stream consumption loop with its try/except (server.py lines
79-120): items are consumed in order, non-"messages" modes are skipped, and
a raised exception stops consumption and contributes one error event. -/
def runStreamSt (s : StreamState) : List SourceItem → StreamState × List Event
  | [] => (s, [])
  | SourceItem.frag mode f :: rest =>
      if mode = "messages" then
        ((runStreamSt (stepFragment s f).1 rest).1,
         (stepFragment s f).2 ++ (runStreamSt (stepFragment s f).1 rest).2)
      else runStreamSt s rest
  | SourceItem.raise msg :: _ => (s, [Event.error ("执行出错: " ++ msg)])

/-- server.py streaming_process: the loop's events, then always exactly one
terminal done event. -/
def streaming_process (source : List SourceItem) : List Event :=
  (runStreamSt initStreamState source).2 ++ [Event.done]

/-- The generate() closure of chat_stream (server.py lines 137-143): one
thread_id event first, then the stream. -/
def generateEvents (tid : String) (source : List SourceItem) : List Event :=
  Event.thread_id tid :: streaming_process source

inductive ChatStreamResult where
  | badRequest (error : String)
  | ok (events : List Event)
deriving DecidableEq, Repr

/-- Python truthiness of a possibly missing string field. -/
def falsy : Option String → Bool
  | none => true
  | some s => s == ""

/-- server.py chat_stream (lines 126-145). The Bool records whether the
conversation engine (graph.stream) is invoked at all — on the 400 path no
generator is built and no conversation state is read or written. -/
def chat_stream (tid msg : Option String) (source : List SourceItem) :
    ChatStreamResult × Bool :=
  if falsy tid || falsy msg then
    (ChatStreamResult.badRequest "missing thread_id or message", false)
  else
    (ChatStreamResult.ok (generateEvents (tid.getD "") source), true)

inductive InitResponse where
  | already_exists
  | created (tid : String)
deriving DecidableEq, Repr

/-- models.py create_initial_state: empty transcript, empty llm context. -/
def create_initial_state : State := { messages := [], llm_context := [] }

/-- graph.update_state: channel-wise application of the add_messages
reducer against the current (or default empty) state. -/
def update_state (st : Option State) (upd : State) : State :=
  let cur := st.getD create_initial_state
  { messages := add_messages cur.messages upd.messages,
    llm_context := add_messages cur.llm_context upd.llm_context }

/-- server.py init_thread (lines 148-168): if the checkpoint exists and its
messages channel is non-empty, answer thread_already_exists without
touching state; otherwise update_state with the initial state. -/
def init_thread (tid : String) (st : Option State) : InitResponse × Option State :=
  match st with
  | some s =>
      if s.messages ≠ [] then (InitResponse.already_exists, some s)
      else (InitResponse.created tid, some (update_state (some s) create_initial_state))
  | none => (InitResponse.created tid, some (update_state none create_initial_state))

/-- The tool-call rendering loop of get_history (server.py lines 185-189):
entries with a None id, name or args are skipped. -/
def renderHistoryToolCalls (tcs : List ToolCall) : String :=
  tcs.foldl (fun acc tc =>
    match tc.call_id, tc.name, tc.args with
    | some i, some n, some a =>
        acc ++ "🔧 Tool Call(" ++ i ++ "):\nname: " ++ n ++ "\nargs: " ++ a ++ "\n\n"
    | _, _, _ => acc) ""

/-- server.py get_history per-message rendering (lines 181-203), returning
the (role, content) pair appended to the response; Python's str.strip() is
modelled by String.trim. -/
def renderHistoryMessage (m : Message) : String × String :=
  if get_message_role m = "tool_call" then
    ("tool_call", (renderHistoryToolCalls m.tool_calls).trim)
  else if get_message_role m = "tool_result" then
    (get_message_role m,
      "✅ Tool Result(" ++ m.tool_call_id ++ "):\nresult: " ++ m.content)
  else
    (get_message_role m, m.content)

/-- Concrete messages and fragments used by the witnesses. -/
def wHuman : Message := { id := "h1", type := "human", content := "hello" }

def wAi : Message := { id := "a1", type := "ai", content := "hi there" }

def wEcho : Message := { id := "h1", type := "human", content := "hello" }

def wAiFrag : Fragment := { msg := wAi, chunk_position := some 2 }

def wEmptyAiFrag : Fragment := { msg := { id := "a1", type := "ai", content := "" } }

def wToolResFrag : Fragment :=
  { msg := { id := "t1", type := "tool", content := "x", tool_call_id := "" } }

def wToolResOkFrag : Fragment :=
  { msg := { id := "t2", type := "tool", content := "ok", tool_call_id := "c9" } }

def wToolCallMsg : Message :=
  { id := "c1", type := "ai", content := ""
    tool_calls := [{ call_id := some "x", name := some "search", args := some "\x7b\x7d" }] }

def wState : State := { messages := [wHuman], llm_context := [] }

def wAgent : List Message → List Message := fun ctx => ctx ++ [wAi]

def cPosFrag : Fragment :=
  { msg := { id := "m1", type := "ai", content := "hi" }, chunk_position := some 0 }

def wStateNE : State := { messages := [wHuman, wAi], llm_context := [wAi] }

def wToolCallToolMsg : Message :=
  { id := "c2", type := "tool", content := "", tool_call_id := "z"
    tool_calls := [{ call_id := some "y", name := some "lookup", args := some "1" }] }

/-! ## Helper lemmas -/

theorem add_messages_nil_right (l : List Message) : add_messages l [] = l := rfl

theorem emitContent_token_pos (r : Option String) (f : Fragment) (c : String)
    (q : Option Nat) (h : Event.token c q ∈ emitContent r f) :
    q = chunk_position_of f := by
  unfold emitContent at h
  split at h
  · simp only [List.mem_singleton, Event.token.injEq] at h
    exact h.2
  · split at h
    · split at h
      · simp at h
      · simp only [List.mem_singleton, Event.token.injEq] at h
        exact h.2
    · simp only [List.mem_singleton, Event.token.injEq] at h
      exact h.2

theorem stepFragment_token_pos (s : StreamState) (f : Fragment) (c : String)
    (q : Option Nat) (h : Event.token c q ∈ (stepFragment s f).2) :
    q = chunk_position_of f := by
  unfold stepFragment at h
  split at h
  · split at h
    · simp at h
    · simp only [List.mem_cons] at h
      rcases h with h | h
      · exact absurd h (by simp)
      · exact emitContent_token_pos _ f c q h
  · exact emitContent_token_pos _ f c q h

theorem emitContent_isToken (r : Option String) (f : Fragment) :
    ∀ e ∈ emitContent r f, e.isToken = true := by
  intro e he
  unfold emitContent at he
  split at he
  · simp at he; subst he; rfl
  · split at he
    · split at he
      · simp at he
      · simp at he; subst he; rfl
    · simp at he; subst he; rfl

theorem isToken_isData (e : Event) (h : e.isToken = true) : e.isData = true := by
  cases e <;> simp_all [Event.isToken, Event.isData]

theorem stepFragment_events_data (s : StreamState) (f : Fragment) :
    ∀ e ∈ (stepFragment s f).2, e.isData = true := by
  intro e he
  unfold stepFragment at he
  split at he
  · split at he
    · simp at he
    · simp only [List.mem_cons] at he
      rcases he with he | he
      · subst he; rfl
      · exact isToken_isData e (emitContent_isToken _ f e he)
  · exact isToken_isData e (emitContent_isToken _ f e he)

theorem stepFragment_message_change_role (s : StreamState) (f : Fragment)
    (r : String) (hr : Event.message_change r ∈ (stepFragment s f).2) :
    r = get_message_role f.msg := by
  unfold stepFragment at hr
  split at hr
  · split at hr
    · simp at hr
    · simp only [List.mem_cons] at hr
      rcases hr with hr | hr
      · cases hr; rfl
      · have := emitContent_isToken _ f _ hr
        simp [Event.isToken] at this
  · have := emitContent_isToken _ f _ hr
    simp [Event.isToken] at this

theorem runStreamSt_events_data (src : List SourceItem) :
    ∀ s : StreamState, (∀ i ∈ src, i.isRaise = false) →
    ∀ e ∈ (runStreamSt s src).2, e.isData = true := by
  induction src with
  | nil => intro s _ e he; simp [runStreamSt] at he
  | cons it rest ih =>
      intro s hnr e he
      cases it with
      | frag mode f =>
          by_cases hm : mode = "messages"
          · subst hm
            have hrw : runStreamSt s (SourceItem.frag "messages" f :: rest)
                = ((runStreamSt (stepFragment s f).1 rest).1,
                   (stepFragment s f).2
                     ++ (runStreamSt (stepFragment s f).1 rest).2) := by
              simp [runStreamSt]
            rw [hrw] at he
            simp only [List.mem_append] at he
            rcases he with he | he
            · exact stepFragment_events_data s f e he
            · exact ih (stepFragment s f).1
                (fun i hi => hnr i (List.mem_cons_of_mem _ hi)) e he
          · have hrw : runStreamSt s (SourceItem.frag mode f :: rest)
                = runStreamSt s rest := by
              simp [runStreamSt, hm]
            rw [hrw] at he
            exact ih s (fun i hi => hnr i (List.mem_cons_of_mem _ hi)) e he
      | raise emsg =>
          have hfalse := hnr _ (List.mem_cons_self (SourceItem.raise emsg) rest)
          simp [SourceItem.isRaise] at hfalse

theorem runStreamSt_raise_events (pre : List SourceItem) :
    ∀ (s : StreamState) (rest : List SourceItem) (emsg : String),
    (∀ i ∈ pre, i.isRaise = false) →
    (runStreamSt s (pre ++ SourceItem.raise emsg :: rest)).2
      = (runStreamSt s pre).2 ++ [Event.error ("执行出错: " ++ emsg)] := by
  induction pre with
  | nil => intro s rest emsg _; simp [runStreamSt]
  | cons it p ih =>
      intro s rest emsg hnr
      cases it with
      | frag mode f =>
          by_cases hm : mode = "messages"
          · subst hm
            rw [List.cons_append]
            have hrw : ∀ tl, (runStreamSt s (SourceItem.frag "messages" f :: tl)).2
                = (stepFragment s f).2 ++ (runStreamSt (stepFragment s f).1 tl).2 := by
              intro tl; simp [runStreamSt]
            rw [hrw, hrw]
            rw [ih (stepFragment s f).1 rest emsg
              (fun i hi => hnr i (List.mem_cons_of_mem _ hi))]
            rw [List.append_assoc]
          · rw [List.cons_append]
            have hrw : ∀ tl, runStreamSt s (SourceItem.frag mode f :: tl)
                = runStreamSt s tl := by
              intro tl; simp [runStreamSt, hm]
            rw [hrw, hrw]
            exact ih s rest emsg (fun i hi => hnr i (List.mem_cons_of_mem _ hi))
      | raise msg2 =>
          have hfalse := hnr _ (List.mem_cons_self (SourceItem.raise msg2) p)
          simp [SourceItem.isRaise] at hfalse

theorem data_filter_empty (l : List Event) (h : ∀ e ∈ l, e.isData = true) :
    l.filter Event.isDone = [] ∧ l.filter Event.isThreadId = [] ∧
    l.filter Event.isError = [] := by
  refine ⟨?_, ?_, ?_⟩ <;> rw [List.filter_eq_nil_iff] <;> intro e he <;>
    have hd := h e he <;> cases e <;>
    simp_all [Event.isData, Event.isDone, Event.isThreadId, Event.isError]

theorem runStreamSt_empty_ai (mid : String) (empties : List Fragment) :
    ∀ s : StreamState, s.message_id ≠ some mid →
    (∀ g ∈ empties, g.msg.id = mid ∧ get_message_role g.msg = "ai" ∧
        g.msg.content = "") →
    (runStreamSt s (empties.map (SourceItem.frag "messages"))).2 = [] ∧
    (runStreamSt s (empties.map (SourceItem.frag "messages"))).1.message_id
      = s.message_id := by
  induction empties with
  | nil => intro s _ _; exact ⟨rfl, rfl⟩
  | cons g rest ih =>
      intro s hs hemp
      obtain ⟨hgid, hgrole, hgc⟩ := hemp g (List.mem_cons_self g rest)
      have hne : s.message_id ≠ some g.msg.id := by rw [hgid]; exact hs
      have hstep : stepFragment s g = ({ s with message_role := some "ai" }, []) := by
        simp [stepFragment, hne, hgrole, hgc]
      have hrw : runStreamSt s ((g :: rest).map (SourceItem.frag "messages"))
          = ((runStreamSt (stepFragment s g).1
                (rest.map (SourceItem.frag "messages"))).1,
             (stepFragment s g).2
               ++ (runStreamSt (stepFragment s g).1
                     (rest.map (SourceItem.frag "messages"))).2) := by
        simp [runStreamSt]
      have ihr := ih { s with message_role := some "ai" } hs
        (fun x hx => hemp x (List.mem_cons_of_mem g hx))
      rw [hrw, hstep]
      exact ⟨by simpa using ihr.1, ihr.2⟩

theorem afterLastRemoveAll_none (l : List Message)
    (h : ∀ m ∈ l, isRemoveAll m = false) : afterLastRemoveAll l = none := by
  induction l with
  | nil => rfl
  | cons m rest ih =>
      unfold afterLastRemoveAll
      rw [ih fun x hx => h x (List.mem_cons_of_mem m hx)]
      simp [h m (List.mem_cons_self m rest)]

theorem afterLastRemoveAll_cons_sentinel (l : List Message)
    (h : ∀ m ∈ l, isRemoveAll m = false) :
    afterLastRemoveAll (removeAllSentinel :: l) = some l := by
  unfold afterLastRemoveAll
  rw [afterLastRemoveAll_none l h]
  simp [show isRemoveAll removeAllSentinel = true by decide]

/-! ## Claim theorems -/

/-- C1: the llm_context update returned by invoke_agent_with_context is a
full replacement: applied through the add_messages reducer to ANY previous
working context, it discards that context entirely and yields exactly the
model's complete returned message list (never the old context with new
messages appended), so the head of the new working context is the head of
the returned list — a summary message generated during the call ends up in
leading position. -/
theorem invoke_full_replacement (prev : List Message) (st : State)
    (agent : List Message → List Message)
    (h : ∀ m ∈ agent (syncContext st.llm_context st.messages), isRemoveAll m = false) :
    add_messages prev (invoke_agent_with_context st agent).2.1
      = agent (syncContext st.llm_context st.messages) ∧
    (add_messages prev (invoke_agent_with_context st agent).2.1).head?
      = (agent (syncContext st.llm_context st.messages)).head? := by
  have key : add_messages prev (invoke_agent_with_context st agent).2.1
      = agent (syncContext st.llm_context st.messages) := by
    show add_messages prev
        (removeAllSentinel :: agent (syncContext st.llm_context st.messages)) = _
    unfold add_messages
    rw [afterLastRemoveAll_cons_sentinel _ h]
  exact ⟨key, by rw [key]⟩

theorem invoke_full_replacement_witness :
    add_messages [wHuman] (invoke_agent_with_context wState wAgent).2.1
      = [wHuman, wAi] :=
  (invoke_full_replacement [wHuman] wState wAgent (by decide)).1.trans rfl

/-- C2: new_ai_messages contains exactly the response messages whose type
is "ai" or "tool" (tool-result) and whose id was not present in the
pre-call augmented context; every id of the augmented context is excluded,
and no human message is ever included. -/
theorem invoke_new_messages_filter (st : State)
    (agent : List Message → List Message) :
    (∀ m, m ∈ (invoke_agent_with_context st agent).1 ↔
        (m ∈ agent (syncContext st.llm_context st.messages) ∧
         (m.type = "ai" ∨ m.type = "tool") ∧
         m.id ∉ (syncContext st.llm_context st.messages).map (fun x => x.id))) ∧
    (∀ i ∈ (syncContext st.llm_context st.messages).map (fun x => x.id),
        ∀ m ∈ (invoke_agent_with_context st agent).1, m.id ≠ i) ∧
    (∀ m ∈ (invoke_agent_with_context st agent).1, m.type ≠ "human") := by
  have hmem : ∀ m, m ∈ (invoke_agent_with_context st agent).1 ↔
      (m ∈ agent (syncContext st.llm_context st.messages) ∧
       (m.type = "ai" ∨ m.type = "tool") ∧
       m.id ∉ (syncContext st.llm_context st.messages).map (fun x => x.id)) := by
    intro m
    show m ∈ (agent (syncContext st.llm_context st.messages)).filter _ ↔ _
    rw [List.mem_filter]
    simp [List.elem_iff]
  refine ⟨hmem, ?_, ?_⟩
  · intro i hi m hm hEq
    exact ((hmem m).1 hm).2.2 (hEq ▸ hi)
  · intro m hm
    rcases ((hmem m).1 hm).2.1 with h | h <;> rw [h] <;> decide

theorem invoke_new_messages_filter_witness :
    wAi ∈ (invoke_agent_with_context wState wAgent).1 ∧
    wAi.id ≠ "h1" ∧ wAi.type ≠ "human" :=
  ⟨((invoke_new_messages_filter wState wAgent).1 wAi).2 (by decide),
   (invoke_new_messages_filter wState wAgent).2.1 "h1" (by decide) wAi
     (((invoke_new_messages_filter wState wAgent).1 wAi).2 (by decide)),
   (invoke_new_messages_filter wState wAgent).2.2 wAi
     (((invoke_new_messages_filter wState wAgent).1 wAi).2 (by decide))⟩

/-- C8: a POST /api/chat/stream request in which thread_id or message is
missing is answered synchronously with HTTP 400 and body
error = "missing thread_id or message", and the conversation engine is
never invoked (and hence no conversation state is read or written): the
invocation flag of the embedded handler is false. -/
theorem chat_stream_validation (tid msg : Option String) (src : List SourceItem)
    (h : tid = none ∨ msg = none) :
    chat_stream tid msg src
      = (ChatStreamResult.badRequest "missing thread_id or message", false) := by
  rcases h with h | h <;> subst h <;> simp [chat_stream, falsy]

theorem chat_stream_validation_witness :
    chat_stream none (some "hello") []
      = (ChatStreamResult.badRequest "missing thread_id or message", false) :=
  chat_stream_validation none (some "hello") [] (Or.inl rfl)

/-- C7: init_thread is idempotent: once the stored state has any visible
messages, init answers thread_already_exists and leaves the store
untouched; otherwise (absent state, or an empty messages channel) it
answers created with the thread id and the stored state it writes has an
empty messages channel (the empty initial state under the add_messages
reducer). -/
theorem init_thread_idempotent (tid : String) (st : Option State) :
    (∀ s, st = some s → s.messages ≠ [] →
        init_thread tid st = (InitResponse.already_exists, st)) ∧
    ((st = none ∨ ∃ s, st = some s ∧ s.messages = []) →
        (init_thread tid st).1 = InitResponse.created tid ∧
        ∃ s2, (init_thread tid st).2 = some s2 ∧ s2.messages = []) := by
  constructor
  · rintro s rfl hne
    simp [init_thread, hne]
  · rintro (rfl | ⟨s, rfl, hemp⟩)
    · exact ⟨rfl, create_initial_state, rfl, rfl⟩
    · refine ⟨by simp [init_thread, hemp], ?_⟩
      refine ⟨update_state (some s) create_initial_state, by simp [init_thread, hemp], ?_⟩
      show add_messages s.messages [] = []
      rw [add_messages_nil_right, hemp]

theorem init_thread_idempotent_witness :
    init_thread "t1" (some wStateNE) = (InitResponse.already_exists, some wStateNE) ∧
    (init_thread "t1" none).1 = InitResponse.created "t1" :=
  ⟨(init_thread_idempotent "t1" (some wStateNE)).1 wStateNE rfl (by decide),
   ((init_thread_idempotent "t1" none).2 (Or.inl rfl)).1⟩

/-- C6 counterexample: with an empty working context and no visible
history, the sync step is a no-op on the empty context — it yields a
zero-message context, never a single-message one as the claim states. -/
theorem sync_empty_no_single_message :
    syncContext [] [] = ([] : List Message) ∧
    ¬ (syncContext ([] : List Message) []).length = 1 :=
  ⟨rfl, by decide⟩

/-- C6 amended: the sync step appends exactly the single newest visible
message (not the whole history) to the stored working context, and when no
visible history exists it is a no-op leaving the (empty) context unchanged
— producing a zero-message context; the synced context is exactly what
invoke_agent_with_context hands to the agent. -/
theorem sync_appends_newest (ctx msgs : List Message) (m : Message)
    (agent : List Message → List Message) :
    (msgs = [] → syncContext ctx msgs = ctx) ∧
    (∀ pre, msgs = pre ++ [m] → syncContext ctx msgs = ctx ++ [m]) ∧
    (invoke_agent_with_context ⟨msgs, ctx⟩ agent).2.2
      = agent (syncContext ctx msgs) := by
  refine ⟨?_, ?_, rfl⟩
  · rintro rfl; rfl
  · rintro pre rfl
    simp [syncContext]

theorem sync_appends_newest_witness :
    syncContext [] [wHuman] = [wHuman] :=
  ((sync_appends_newest [] [wHuman] wHuman wAgent).2.1) [] rfl

/-- C9 counterexample: a fragment carrying a position of 0 does not have it
passed through — the emitted token event carries null (none), so the claim
fails at position 0. -/
theorem chunk_position_zero_dropped :
    cPosFrag.chunk_position = some 0 ∧
    (stepFragment initStreamState cPosFrag).2
      = [Event.message_change "ai", Event.token "hi" none] ∧
    Event.token "hi" (some 0) ∉ (stepFragment initStreamState cPosFrag).2 := by
  refine ⟨rfl, by decide, by decide⟩

/-- C9 amended: every token event emitted for a fragment carries
chunk_position_of f — the fragment's position passed through untouched when
it is non-zero (truthy), and normalised to null when the position is 0 or
absent. -/
theorem chunk_position_passthrough (s : StreamState) (f : Fragment) (p : Nat) :
    (∀ c q, Event.token c q ∈ (stepFragment s f).2 → q = chunk_position_of f) ∧
    (f.chunk_position = some p → p ≠ 0 → chunk_position_of f = some p) ∧
    (f.chunk_position = some 0 → chunk_position_of f = none) ∧
    (f.chunk_position = none → chunk_position_of f = none) := by
  refine ⟨fun c q h => stepFragment_token_pos s f c q h, ?_, ?_, ?_⟩
  · intro h hp; simp [chunk_position_of, h, hp]
  · intro h; simp [chunk_position_of, h]
  · intro h; simp [chunk_position_of, h]

theorem chunk_position_passthrough_witness :
    (some 2 : Option Nat) = chunk_position_of wAiFrag ∧
    chunk_position_of wAiFrag = some 2 ∧
    chunk_position_of cPosFrag = none :=
  ⟨(chunk_position_passthrough initStreamState wAiFrag 2).1 "hi there" (some 2)
      (by decide),
   ((chunk_position_passthrough initStreamState wAiFrag 2).2.1) rfl (by decide),
   ((chunk_position_passthrough initStreamState cPosFrag 0).2.2.1) rfl⟩

/-- C3 counterexample: a tool_result fragment with no tool_call_id but with
non-empty content ("x") gets no token event from the formatter — the code
suppresses exactly when tool_call_id is absent AND content is present — so
the claim, which requires any content-bearing fragment to be emitted, fails
at this input. -/
theorem tool_result_suppression_counterexample :
    get_message_role wToolResFrag.msg = "tool_result" ∧
    wToolResFrag.msg.tool_call_id = "" ∧
    wToolResFrag.msg.content = "x" ∧
    (stepFragment initStreamState wToolResFrag).2
      = [Event.message_change "tool_result"] ∧
    ((stepFragment initStreamState wToolResFrag).2.filter Event.isToken).length
      = 0 := by
  refine ⟨by decide, rfl, rfl, by decide, by decide⟩

/-- C3 amended: for a fragment processed under the tool_result role, the
token emission is suppressed iff the fragment has no tool_call_id AND has
non-empty content; a fragment with a tool_call_id or with empty content is
emitted as a token event rendering its tool_call_id and content. -/
theorem tool_result_suppression_amended (s : StreamState) (f : Fragment)
    (hid : s.message_id = some f.msg.id)
    (hrole : s.message_role = some "tool_result") :
    (stepFragment s f).2
      = if f.msg.tool_call_id = "" ∧ f.msg.content ≠ "" then []
        else [Event.token
          ("✅ Tool Result(" ++ f.msg.tool_call_id ++ "):\nresult: "
            ++ f.msg.content)
          (chunk_position_of f)] := by
  simp [stepFragment, hid, hrole, emitContent]

theorem tool_result_suppression_amended_witness :
    (stepFragment { message_id := some "t2", message_role := some "tool_result" }
        wToolResOkFrag).2
      = [Event.token "✅ Tool Result(c9):\nresult: ok" none] := by
  rw [tool_result_suppression_amended
      { message_id := some "t2", message_role := some "tool_result" }
      wToolResOkFrag rfl rfl]
  decide

/-- C5: an ai-classified fragment that opens a new message id with an empty
content delta is fully suppressed — no message_change and no token event —
and the tracked message id stays unchanged; after any run of such empty
fragments, the first non-empty fragment of that logical message is the one
that emits the message_change event (followed by its token). -/
theorem empty_ai_message_change_suppression (s : StreamState) (mid : String)
    (empties : List Fragment) (f : Fragment)
    (hs : s.message_id ≠ some mid)
    (hemp : ∀ g ∈ empties, g.msg.id = mid ∧ get_message_role g.msg = "ai" ∧
        g.msg.content = "")
    (hid : f.msg.id = mid) (hrole : get_message_role f.msg = "ai")
    (hc : f.msg.content ≠ "") :
    (runStreamSt s (empties.map (SourceItem.frag "messages"))).2 = [] ∧
    (runStreamSt s (empties.map (SourceItem.frag "messages"))).1.message_id
      = s.message_id ∧
    (stepFragment (runStreamSt s (empties.map (SourceItem.frag "messages"))).1 f).2
      = [Event.message_change "ai",
         Event.token f.msg.content (chunk_position_of f)] := by
  obtain ⟨h1, h2⟩ := runStreamSt_empty_ai mid empties s hs hemp
  refine ⟨h1, h2, ?_⟩
  have hne : (runStreamSt s (empties.map (SourceItem.frag "messages"))).1.message_id
      ≠ some f.msg.id := by rw [h2, hid]; exact hs
  simp [stepFragment, hne, hrole, hc, emitContent]

theorem empty_ai_message_change_suppression_witness :
    (runStreamSt initStreamState [SourceItem.frag "messages" wEmptyAiFrag]).2
      = [] ∧
    (stepFragment (runStreamSt initStreamState
        [SourceItem.frag "messages" wEmptyAiFrag]).1 wAiFrag).2
      = [Event.message_change "ai", Event.token "hi there" (some 2)] := by
  have h := empty_ai_message_change_suppression initStreamState "a1"
      [wEmptyAiFrag] wAiFrag (by decide) (by decide) rfl (by decide) (by decide)
  exact ⟨h.1, h.2.2⟩

/-- C10: get_message_role is total and deterministic — it always returns
exactly one of the four roles, the tool-call check takes strict precedence
(any message with non-empty tool_calls or tool_call_chunks is "tool_call"
even if its type is "tool" (ToolMessage) or "human" (HumanMessage)), and
both the stored-history rendering and the streaming message_change event
use this same classifier, so a given message receives the same role in
both paths. -/
theorem role_classifier_total (m : Message) (s : StreamState) (f : Fragment) :
    (get_message_role m = "tool_call" ∨ get_message_role m = "tool_result" ∨
     get_message_role m = "human" ∨ get_message_role m = "ai") ∧
    (m.tool_calls ≠ [] ∨ m.tool_call_chunks ≠ [] →
      get_message_role m = "tool_call") ∧
    ((renderHistoryMessage m).1 = get_message_role m) ∧
    (∀ r, Event.message_change r ∈ (stepFragment s f).2 →
      r = get_message_role f.msg) := by
  refine ⟨?_, ?_, ?_, fun r hr => stepFragment_message_change_role s f r hr⟩
  · unfold get_message_role
    split
    · exact Or.inl rfl
    · split
      · exact Or.inr (Or.inl rfl)
      · split
        · exact Or.inr (Or.inr (Or.inl rfl))
        · exact Or.inr (Or.inr (Or.inr rfl))
  · intro h
    unfold get_message_role
    rw [if_pos]
    rcases h with h | h
    · exact Or.inr h
    · exact Or.inl h
  · unfold renderHistoryMessage
    split
    · rename_i h; exact h.symm
    · split
      · rfl
      · rfl

theorem role_classifier_total_witness :
    get_message_role wToolCallToolMsg = "tool_call" ∧
    (renderHistoryMessage wToolCallToolMsg).1 = get_message_role wToolCallToolMsg ∧
    "ai" = get_message_role wAiFrag.msg :=
  ⟨(role_classifier_total wToolCallToolMsg initStreamState wAiFrag).2.1
      (Or.inl (by decide)),
   (role_classifier_total wToolCallToolMsg initStreamState wAiFrag).2.2.1,
   (role_classifier_total wToolCallToolMsg initStreamState wAiFrag).2.2.2 "ai"
      (by decide)⟩

/-- C4: for every POST /api/chat/stream request that passes validation, the
emitted SSE sequence begins with exactly one thread_id event and ends with
exactly one done event on both the success and the failure paths; when the
model call raises mid-stream, exactly one error event is emitted
immediately before done, and the emitted events do not depend on anything
in the source after the raise — no further fragments are read. -/
theorem stream_terminal_events (tid m : String) (src pre rest : List SourceItem)
    (emsg : String) (htid : tid ≠ "") (hm : m ≠ "")
    (hsrc : ∀ i ∈ src, i.isRaise = false)
    (hpre : ∀ i ∈ pre, i.isRaise = false) :
    chat_stream (some tid) (some m) src
      = (ChatStreamResult.ok (generateEvents tid src), true) ∧
    (generateEvents tid src).head? = some (Event.thread_id tid) ∧
    (generateEvents tid src).getLast? = some Event.done ∧
    ((generateEvents tid src).filter Event.isDone).length = 1 ∧
    ((generateEvents tid src).filter Event.isThreadId).length = 1 ∧
    ((generateEvents tid src).filter Event.isError).length = 0 ∧
    generateEvents tid (pre ++ SourceItem.raise emsg :: rest)
      = Event.thread_id tid :: ((runStreamSt initStreamState pre).2
          ++ [Event.error ("执行出错: " ++ emsg), Event.done]) ∧
    ((generateEvents tid (pre ++ SourceItem.raise emsg :: rest)).filter
        Event.isDone).length = 1 ∧
    (generateEvents tid (pre ++ SourceItem.raise emsg :: rest)).getLast?
      = some Event.done := by
  obtain ⟨hdS, htS, heS⟩ :=
    data_filter_empty _ (runStreamSt_events_data src initStreamState hsrc)
  obtain ⟨hdP, htP, heP⟩ :=
    data_filter_empty _ (runStreamSt_events_data pre initStreamState hpre)
  have hraise := runStreamSt_raise_events pre initStreamState rest emsg hpre
  refine ⟨?_, rfl, ?_, ?_, ?_, ?_, ?_, ?_, ?_⟩
  · have h1 : falsy (some tid) = false := by simp [falsy, htid]
    have h2 : falsy (some m) = false := by simp [falsy, hm]
    simp [chat_stream, h1, h2]
  · show (Event.thread_id tid
        :: ((runStreamSt initStreamState src).2 ++ [Event.done])).getLast?
        = some Event.done
    rw [show Event.thread_id tid
        :: ((runStreamSt initStreamState src).2 ++ [Event.done])
        = (Event.thread_id tid :: (runStreamSt initStreamState src).2)
            ++ [Event.done] from rfl]
    rw [List.getLast?_append]
    rfl
  · show ((Event.thread_id tid
        :: ((runStreamSt initStreamState src).2 ++ [Event.done])).filter
          Event.isDone).length = 1
    rw [List.filter_cons, List.filter_append, hdS]
    simp [Event.isDone]
  · show ((Event.thread_id tid
        :: ((runStreamSt initStreamState src).2 ++ [Event.done])).filter
          Event.isThreadId).length = 1
    rw [List.filter_cons, List.filter_append, htS]
    simp [Event.isThreadId]
  · show ((Event.thread_id tid
        :: ((runStreamSt initStreamState src).2 ++ [Event.done])).filter
          Event.isError).length = 0
    rw [List.filter_cons, List.filter_append, heS]
    simp [Event.isError, Event.isThreadId]
  · show Event.thread_id tid
        :: ((runStreamSt initStreamState (pre ++ SourceItem.raise emsg :: rest)).2
            ++ [Event.done]) = _
    rw [hraise, List.append_assoc]
    rfl
  · show ((Event.thread_id tid
        :: ((runStreamSt initStreamState (pre ++ SourceItem.raise emsg :: rest)).2
            ++ [Event.done])).filter Event.isDone).length = 1
    rw [hraise, List.filter_cons, List.append_assoc, List.filter_append, hdP]
    simp [Event.isDone]
  · show (Event.thread_id tid
        :: ((runStreamSt initStreamState (pre ++ SourceItem.raise emsg :: rest)).2
            ++ [Event.done])).getLast? = some Event.done
    rw [hraise, List.append_assoc]
    rw [show Event.thread_id tid
        :: ((runStreamSt initStreamState pre).2
            ++ ([Event.error ("执行出错: " ++ emsg)] ++ [Event.done]))
        = (Event.thread_id tid :: (runStreamSt initStreamState pre).2
            ++ [Event.error ("执行出错: " ++ emsg)]) ++ [Event.done] from by
      simp]
    rw [List.getLast?_append]
    rfl

theorem stream_terminal_events_witness :
    (generateEvents "t1" [SourceItem.frag "messages" wAiFrag]).getLast?
      = some Event.done ∧
    generateEvents "t1" [SourceItem.raise "boom"]
      = Event.thread_id "t1" :: ((runStreamSt initStreamState []).2
          ++ [Event.error ("执行出错: " ++ "boom"), Event.done]) := by
  have h := stream_terminal_events "t1" "hello"
      [SourceItem.frag "messages" wAiFrag] [] [] "boom"
      (by decide) (by decide) (by decide) (by decide)
  exact ⟨h.2.2.1, h.2.2.2.2.2.2.1⟩

end Spec2Proof
